import Mathlib

/-!
Verification of the budget-spreadsheet converter (src/app.py).

The file shallowly embeds the conversion pipeline of `convert_budget`
(src/app.py lines 67-134) together with its helpers
`extract_year_from_value` (lines 19-34) and `extract_year` (lines 37-55).

Modelling conventions:
  * pandas cell values of the Budget_Account column, after
    `.astype("string")`, are `Option String` (`none` = NA);
  * a raw worksheet is a `List (List Cell)` of rows, where `Cell` is
    missing, date-like (carrying its calendar year) or text;
  * character classes use the ASCII reading of the regex classes \s and \d;
    the only non-ASCII whitespace the pipeline meets, the non-breaking
    space, is replaced by an ordinary space before any matching (line 94);
  * the group-marker regexes of lines 106 and 108 accept the same strings
    and differ only in whether the suffix stays inside capture 1, so both
    are embedded by one parser, with the flag applied to the capture.
    The parser commits to the greedy, non-backtracking reading, which
    agrees with Python `re` on every string the pipeline feeds it
    (line 92-96 always strips the value first, so the text after the
    colon can neither be a pure whitespace run nor end with a newline);
  * raised exceptions are `Except.error` with the exception message.
-/

set_option maxHeartbeats 1000000

/-- ASCII whitespace: the characters matched by the regex class \s and
stripped by Python str.strip in the source. -/
def isSpc (c : Char) : Bool :=
  c = ' ' || c = '\t' || c = '\n' || c = '\r' || c = '\x0b' || c = '\x0c'

/-- Characters allowed in the optional marker suffix: the class [^:\s]
of src/app.py line 106. -/
def sufChar (c : Char) : Bool := !(c = ':') && !(isSpc c)

/-- Python str.strip over a character list. -/
def stripL (cs : List Char) : List Char :=
  ((cs.dropWhile isSpc).reverse.dropWhile isSpc).reverse

/-- Python str.strip at string level (pandas .str.strip(), lines 76, 95, 121). -/
def pyStrip (s : String) : String := String.mk (stripL s.data)

/-- Python str.split() with no separator (pandas .str.split() at line 122):
split on whitespace runs, dropping empty pieces.  Accumulator form so the
recursion is structural. -/
def tokensAux : List Char → List Char → List (List Char)
  | [], acc => if acc.isEmpty then [] else [acc.reverse]
  | c :: cs, acc =>
    if isSpc c then
      if acc.isEmpty then tokensAux cs [] else acc.reverse :: tokensAux cs []
    else tokensAux cs (c :: acc)

/-- The token list of a character list (Python str.split()). -/
def pyTokensL (cs : List Char) : List (List Char) := tokensAux cs []

/-- Tail of the group-marker regex after the code and the optional suffix:
the part \s*:\s*(.+)$ of lines 106 and 108.  Returns the captured TEXT. -/
def after_colon (rest : List Char) : Option (List Char) :=
  match rest.dropWhile isSpc with
  | ':' :: post =>
    let t := post.dropWhile isSpc
    if t.isEmpty || t.contains '\n' then none else some t
  | _ => none

/-- The group-marker regex of src/app.py lines 105-108, as a parser on the
character list: ^(G\d\x7b3\x7d)(_[^:\s]+)?\s*:\s*(.+)$ .  Returns
(code, suffix, text); the suffix is [] when absent. -/
def group_match : List Char → Option (List Char × List Char × List Char)
  | 'G' :: d1 :: d2 :: d3 :: rest =>
    if d1.isDigit && d2.isDigit && d3.isDigit then
      match rest with
      | '_' :: r =>
        let body := r.takeWhile sufChar
        if body.isEmpty then none
        else
          match after_colon (r.dropWhile sufChar) with
          | some t => some (['G', d1, d2, d3], '_' :: body, t)
          | none => none
      | _ =>
        match after_colon rest with
        | some t => some (['G', d1, d2, d3], [], t)
        | none => none
    else none
  | _ => none

/-- pandas .str.extract(group_pat) at one value (lines 105-111): capture 1
is the Budget_Code, with the suffix kept or dropped according to the flag
keep_suffix_in_budget_code, capture 2 is the Budget_Type. -/
def group_extract (keep : Bool) (s : String) : Option (String × String) :=
  (group_match s.data).map (fun x =>
    (String.mk (if keep then x.1 ++ x.2.1 else x.1), String.mk x.2.2))

/-- The non-breaking space replaced at line 94. -/
def NBSP : Char := '\u00A0'

/-- Lines 92-96: astype(string) keeps NA as NA; replace the non-breaking
space by an ordinary space; strip. -/
def normalize_account (v : Option String) : Option String :=
  v.map (fun s =>
    String.mk (stripL (s.data.map (fun c => if c = NBSP then ' ' else c))))

/-- pandas Series.ffill (lines 113-114) with the carried state explicit. -/
def ffillAux (cur : Option String) : List (Option String) → List (Option String)
  | [] => []
  | some v :: xs => some v :: ffillAux (some v) xs
  | none :: xs => cur :: ffillAux cur xs

/-- Row-wise zip of the Budget_Code, Budget_Type and Budget_Account columns
followed by dropna(subset=[Budget_Account]) (lines 113-118): rows whose
account is NA (original NA cells and the blanked marker rows) disappear. -/
def collect_rows : List (Option String) → List (Option String) → List (Option String) →
    List (Option String × Option String × String)
  | c :: cs, t :: ts, some v :: vs => (c, t, v) :: collect_rows cs ts vs
  | _ :: cs, _ :: ts, none :: vs => collect_rows cs ts vs
  | _, _, _ => []

/-- One output record: the forward-filled group context plus the split
account field (the money columns are carried unchanged by the source and
play no part in the claims). -/
structure OutRow where
  budgetCode : Option String
  budgetType : Option String
  expenseCode : Option String
  expenseDetail : String
deriving DecidableEq

/-- Lines 121-123: re-strip the surviving account text, split on whitespace;
token 0 becomes Expense_Code (NA when there is no token, exactly as
.str.split().str[0] yields NA on an empty token list), the remaining tokens
joined by single spaces become Expense_Detail. -/
def split_fields (v : String) : Option String × String :=
  let tk := pyTokensL (stripL v.data)
  ((tk.head?).map String.mk, String.intercalate (" ") ((tk.drop 1).map String.mk))

/-- Assemble one output row from a collected (code, type, account) triple. -/
def out_row (c t : Option String) (v : String) : OutRow :=
  { budgetCode := c, budgetType := t,
    expenseCode := (split_fields v).1, expenseDetail := (split_fields v).2 }

/-- Lines 92-124 of convert_budget applied to the Budget_Account column:
normalise, extract the marker pattern, forward-fill the two group columns,
blank markers and drop NA accounts, then split the survivors.
The source computes m[0].where(is_group) and m[1].where(is_group) with
is_group = m[0].notna(); since the extract is NA exactly on non-matching
rows, the .where is the identity and the ffill runs on the extraction
columns themselves. -/
def convert_rows (keep : Bool) (col : List (Option String)) : List OutRow :=
  let s := col.map normalize_account
  let ext := s.map (fun o => o.bind (group_extract keep))
  let code := ffillAux none (ext.map (Option.map Prod.fst))
  let typ := ffillAux none (ext.map (Option.map Prod.snd))
  let acct := List.zipWith (fun v e => if Option.isSome e then none else v) s ext
  (collect_rows code typ acct).map (fun r => out_row r.1 r.2.1 r.2.2)

/-- Sequential (fold) reading of lines 105-118: one pass over the rows in
order, carrying the active group context, emitting the surviving
(code, type, account) triples.  Proved equal to the vectorised pipeline. -/
def surv_fold (keep : Bool) (c0 t0 : Option String) :
    List (Option String) → List (Option String × Option String × String)
  | [] => []
  | v :: vs =>
    match (normalize_account v).bind (group_extract keep) with
    | some p => surv_fold keep (some p.1) (some p.2) vs
    | none =>
      match normalize_account v with
      | none => surv_fold keep c0 t0 vs
      | some str => (c0, t0, str) :: surv_fold keep c0 t0 vs

/-- A raw worksheet cell: missing (NaN/None), date-like (a value exposing a
calendar year attribute, line 25), or text.  Numeric cells are covered by
the text case through their str() rendering. -/
inductive Cell where
  | na : Cell
  | date : Nat → Cell
  | str : String → Cell
deriving DecidableEq

/-- Python str() of a date-like value: a timestamp renders as
YYYY-MM-DD HH:MM:SS, modelled with the year and a fixed remainder. -/
def date_str (y : Nat) : String := toString y ++ "-01-01 00:00:00"

/-- Python str() of a cell, as used when a raw row is promoted to the
header at line 76 (str() of NaN is the text nan). -/
def cell_str : Cell → String
  | .na => "nan"
  | .date y => date_str y
  | .str s => s

/-- Leftmost match of the regex (19|20)\d\x7b2\x7d of line 33. -/
def find_year : List Char → Option (List Char)
  | c1 :: c2 :: c3 :: c4 :: rest =>
    if ((c1 = '1' && c2 = '9') || (c1 = '2' && c2 = '0')) && (c3.isDigit && c4.isDigit)
    then some [c1, c2, c3, c4]
    else find_year (c2 :: c3 :: c4 :: rest)
  | _ => none

/-- Lines 19-34: best-effort year from one cell value.  A date-like value
whose year lies in [1900, 2100] yields that year as text; otherwise the
value is rendered with str() and searched for the first (19|20)\d\x7b2\x7d
substring; missing values and failed searches yield the empty string. -/
def extract_year_from_value : Cell → String
  | .na => ""
  | .date y =>
    if 1900 ≤ y && y ≤ 2100 then toString y
    else match find_year (date_str y).data with
         | some t => String.mk t
         | none => ""
  | .str s =>
    match find_year s.data with
    | some t => String.mk t
    | none => ""

/-- Lines 40-45: the probe of raw.iloc[5, 0], with the IndexError of a
missing row or column swallowed by the try/except. -/
def year_probe (raw : List (List Cell)) : String :=
  match (raw[5]?).bind (fun row => row[0]?) with
  | some c => extract_year_from_value c
  | none => ""

/-- Inner loop of lines 50-54 over the first 6 cells of one row: first
non-empty per-cell result wins. -/
def scan_row : List Cell → String
  | [] => ""
  | c :: cs =>
    let y := extract_year_from_value c
    if y = "" then scan_row cs else y

/-- Outer loop of lines 48-55 over the first 25 rows. -/
def scan_rows : List (List Cell) → String
  | [] => ""
  | r :: rs =>
    let y := scan_row (r.take 6)
    if y = "" then scan_rows rs else y

/-- Lines 37-55: try the known cell raw.iloc[5,0] first; if it yields
nothing, scan the top-left 25 x 6 region in row-major order. -/
def extract_year (raw : List (List Cell)) : String :=
  let p := year_probe raw
  if p = "" then scan_rows (raw.take 25) else p

/-- The rename table of lines 9-16. -/
def RENAME_MAP : List (String × String) :=
  [("รหัสบัญชีงบประมาณ", "Budget_Account"),
   ("งบประมาณ", "Budget"),
   ("PR/กันงบ", "PR/Reserved_Budget"),
   ("ตั้งหนี้/จ่าย", "Accured/Paid"),
   ("คงเหลือ", "Remaining_Balance"),
   ("ใช้ไป%", "Spent%")]

/-- df.rename(columns=RENAME_MAP) at one column label (line 86):
unmatched labels pass through unchanged. -/
def rename_col (h : String) : String :=
  match RENAME_MAP.find? (fun p => p.1 == h) with
  | some p => p.2
  | none => h

/-- Lines 72-76: drop the rows labelled 0-8 (errors ignored), reset the
index, drop the row labelled 1 of the remainder (errors ignored), and
promote the first remaining row to the header.  A sheet left empty by the
drops has no row to promote: df.iloc[0] raises there, hence none. -/
def header_row (raw : List (List Cell)) : Option (List Cell) :=
  let df1 := raw.drop 9
  ((df1.take 1) ++ (df1.drop 2)).head?

/-- Lines 76-86: header cells rendered with str() and stripped (the strip
is applied a second time at line 80), the constant Year column appended
(df[Year] = year creates the column when absent), then the rename map
applied to every label. -/
def columns_after_rename (raw : List (List Cell)) : Option (List String) :=
  (header_row raw).map (fun hdr =>
    let hs := hdr.map (fun c => pyStrip (pyStrip (cell_str c)))
    let hs2 := if hs.contains ("Year") then hs else hs ++ [("Year")]
    hs2.map rename_col)

/-- The message of the IndexError pandas raises for df.iloc[0] on an empty
frame (reached from line 76 when the drops leave no rows). -/
def INDEX_ERROR_MSG : String := "single positional indexer is out-of-bounds"

/-- The message of the KeyError raised at line 89 (quotation marks elided). -/
def KEY_ERROR_MSG : String := "Could not find Budget_Account column after header set."

/-- Lines 72-89 of convert_budget: the header-normalisation stage up to and
including the required-column check.  Except.error carries the message of
the exception that escapes convert_budget there; on success the final
column labels are returned and the conversion proceeds. -/
def convert_budget_columns (raw : List (List Cell)) : Except String (List String) :=
  match columns_after_rename raw with
  | none => Except.error INDEX_ERROR_MSG
  | some cols =>
    if cols.contains ("Budget_Account") then Except.ok cols
    else Except.error KEY_ERROR_MSG

/-- The invariant pattern for the Year string: a full match of (19|20)\d\d. -/
def validYearB (s : String) : Bool :=
  match s.data with
  | [c1, c2, c3, c4] =>
    ((c1 = '1' && c2 = '9') || (c1 = '2' && c2 = '0')) && (c3.isDigit && c4.isDigit)
  | _ => false

/-- Specification-side reading of the (amended) group-marker pattern: an
explicit decomposition of the character list into the code G d d d, an
optional suffix of an underscore and one or more non-colon non-whitespace
characters, whitespace, the colon, and a remainder whose whitespace-trimmed
text is non-empty and newline-free (the regex atoms \s*:\s*(.+)$). -/
def SpecMarker (cs : List Char) : Prop :=
  ∃ d1 d2 d3 suffix sep post,
    cs = 'G' :: d1 :: d2 :: d3 :: (suffix ++ sep ++ ':' :: post) ∧
    d1.isDigit = true ∧ d2.isDigit = true ∧ d3.isDigit = true ∧
    (suffix = [] ∨ ∃ b, suffix = '_' :: b ∧ b ≠ [] ∧ b.all sufChar = true) ∧
    sep.all isSpc = true ∧
    post.dropWhile isSpc ≠ [] ∧ (post.dropWhile isSpc).contains '\n' = false

/-- Specification-side field splitter: the text before the first run of
whitespace. -/
def text_before_ws (s : String) : String :=
  String.mk (s.data.takeWhile (fun c => !isSpc c))

/-- Specification-side field splitter: the tokens after the first one,
rejoined with single spaces. -/
def detail_after_ws (s : String) : String :=
  String.intercalate (" ")
    ((pyTokensL (s.data.dropWhile (fun c => !isSpc c))).map String.mk)

/-- List helper: takeWhile over an all-satisfying prefix. -/
theorem takeWhile_append_all {α} (p : α → Bool) (l r : List α) (h : l.all p = true) :
    (l ++ r).takeWhile p = l ++ r.takeWhile p := by
  induction l with
  | nil => rfl
  | cons a l ih =>
    simp only [List.all_cons, Bool.and_eq_true] at h
    simp [List.takeWhile_cons, h.1, ih h.2]

/-- List helper: dropWhile over an all-satisfying prefix. -/
theorem dropWhile_append_all {α} (p : α → Bool) (l r : List α) (h : l.all p = true) :
    (l ++ r).dropWhile p = r.dropWhile p := by
  induction l with
  | nil => rfl
  | cons a l ih =>
    simp only [List.all_cons, Bool.and_eq_true] at h
    simp [List.dropWhile_cons, h.1, ih h.2]

/-- List helper: dropWhile empties an all-satisfying list. -/
theorem dropWhile_all {α} (p : α → Bool) (l : List α) (h : l.all p = true) :
    l.dropWhile p = [] := by
  have h2 := dropWhile_append_all p l [] h
  simpa using h2

/-- List helper: the head of a dropWhile residue fails the predicate. -/
theorem dropWhile_head_false {α} (p : α → Bool) (l : List α) (x : α) (xs : List α)
    (h : l.dropWhile p = x :: xs) : p x = false := by
  induction l with
  | nil => simp [List.dropWhile] at h
  | cons a l ih =>
    by_cases hp : p a
    · rw [List.dropWhile_cons_of_pos hp] at h
      exact ih h
    · rw [List.dropWhile_cons_of_neg hp] at h
      cases h
      exact Bool.of_not_eq_true hp

/-- Tokeniser helper: every token produced by tokensAux is non-empty. -/
theorem tokensAux_ne_nil (cs : List Char) : ∀ (acc t : List Char),
    t ∈ tokensAux cs acc → t ≠ [] := by
  induction cs with
  | nil =>
    intro acc t ht
    by_cases ha : acc.isEmpty
    · simp [tokensAux, ha] at ht
    · simp [tokensAux, ha] at ht
      subst ht
      simp only [ne_eq, List.reverse_eq_nil_iff]
      intro hnil
      rw [hnil] at ha
      simp at ha
  | cons c cs ih =>
    intro acc t ht
    by_cases hc : isSpc c
    · by_cases ha : acc.isEmpty
      · rw [tokensAux, if_pos hc, if_pos ha] at ht
        exact ih [] t ht
      · rw [tokensAux, if_pos hc, if_neg ha] at ht
        rcases List.mem_cons.mp ht with h1 | h2
        · subst h1
          simp only [ne_eq, List.reverse_eq_nil_iff]
          intro hnil
          rw [hnil] at ha
          simp at ha
        · exact ih [] t h2
    · rw [tokensAux, if_neg hc] at ht
      exact ih (c :: acc) t ht

/-- Tokeniser helper: a run of non-whitespace characters is absorbed into
the accumulator. -/
theorem tokensAux_append_nonspc (a : List Char) (h : a.all (fun c => !isSpc c) = true) :
    ∀ (cs acc : List Char), tokensAux (a ++ cs) acc = tokensAux cs (a.reverse ++ acc) := by
  induction a with
  | nil => intro cs acc; rfl
  | cons x a ih =>
    intro cs acc
    simp only [List.all_cons, Bool.and_eq_true, Bool.not_eq_true'] at h
    rw [List.cons_append, tokensAux, if_neg (by simp [h.1])]
    rw [ih (by simpa using h.2) cs (x :: acc)]
    simp

/-- Tokeniser: a leading non-whitespace token followed by whitespace (or the
end) is the first token. -/
theorem pyTokensL_split (a b : List Char) (hne : a ≠ [])
    (ha : a.all (fun c => !isSpc c) = true)
    (hb : b = [] ∨ ∃ x xs, b = x :: xs ∧ isSpc x = true) :
    pyTokensL (a ++ b) = a :: pyTokensL b := by
  unfold pyTokensL
  rw [tokensAux_append_nonspc a ha b []]
  rcases hb with hb | ⟨x, xs, hb, hx⟩
  · subst hb
    have : (a.reverse ++ []).isEmpty = false := by
      simp only [List.append_nil, List.isEmpty_eq_false_iff_exists_mem]
      rcases List.exists_mem_of_ne_nil a hne with ⟨y, hy⟩
      exact ⟨y, List.mem_reverse.mpr hy⟩
    simp [tokensAux, this]
    exact hne
  · subst hb
    have h1 : (a.reverse ++ []).isEmpty = false := by
      simp only [List.append_nil, List.isEmpty_eq_false_iff_exists_mem]
      rcases List.exists_mem_of_ne_nil a hne with ⟨y, hy⟩
      exact ⟨y, List.mem_reverse.mpr hy⟩
    rw [tokensAux, if_pos hx, if_neg (by simp_all), tokensAux, if_pos hx]
    simp

/-- List helper: zipWith over two maps of the same list is a map. -/
theorem zipWith_map_same {α β γ δ} (f : β → γ → δ) (g : α → β) (h : α → γ)
    (l : List α) : List.zipWith f (l.map g) (l.map h) = l.map (fun x => f (g x) (h x)) := by
  induction l with
  | nil => rfl
  | cons a l ih => simp [ih]

/-- The collect stage of the vectorised pipeline, with the two forward-fill
states made explicit, equals the sequential fold. -/
theorem pipeline_aux (keep : Bool) (col : List (Option String)) :
    ∀ (c0 t0 : Option String),
    collect_rows
      (ffillAux c0 (col.map (fun v => ((normalize_account v).bind (group_extract keep)).map Prod.fst)))
      (ffillAux t0 (col.map (fun v => ((normalize_account v).bind (group_extract keep)).map Prod.snd)))
      (col.map (fun v => if ((normalize_account v).bind (group_extract keep)).isSome
                         then none else normalize_account v))
    = surv_fold keep c0 t0 col := by
  induction col with
  | nil => intro c0 t0; rfl
  | cons v vs ih =>
    intro c0 t0
    cases hs : normalize_account v with
    | none =>
      simp only [List.map_cons, hs, Option.none_bind, Option.map_none', Option.isSome_none,
        Bool.false_eq_true, if_false, ffillAux, collect_rows, surv_fold]
      exact ih c0 t0
    | some str =>
      cases hg : group_extract keep str with
      | some p =>
        simp only [List.map_cons, hs, Option.some_bind, hg, Option.map_some',
          Option.isSome_some, if_true, ffillAux, collect_rows, surv_fold]
        exact ih (some p.1) (some p.2)
      | none =>
        simp only [List.map_cons, hs, Option.some_bind, hg, Option.map_none',
          Option.isSome_none, Bool.false_eq_true, if_false, ffillAux, collect_rows, surv_fold]
        rw [ih c0 t0]

/-- The vectorised pipeline of lines 92-124 equals the row-order fold
carrying the group context, started with no active group. -/
theorem convert_rows_eq_fold (keep : Bool) (col : List (Option String)) :
    convert_rows keep col =
      (surv_fold keep none none col).map (fun r => out_row r.1 r.2.1 r.2.2) := by
  rw [← pipeline_aux keep col none none]
  unfold convert_rows
  simp only [List.map_map]
  rw [zipWith_map_same]
  rfl

/-- C1: on the Budget_Account sequence [G501: Group A, 511 item one,
512 item two, G502: Group B, 521 item three] the classifier and splitter
produce exactly three rows in order, each carrying the most recent
preceding marker's captured code and type, and no marker row survives. -/
theorem claim_C1 :
    convert_rows true
      [some ("G501: Group A"), some ("511 item one"), some ("512 item two"),
       some ("G502: Group B"), some ("521 item three")] =
      [{ budgetCode := some ("G501"), budgetType := some ("Group A"),
         expenseCode := some ("511"), expenseDetail := ("item one") },
       { budgetCode := some ("G501"), budgetType := some ("Group A"),
         expenseCode := some ("512"), expenseDetail := ("item two") },
       { budgetCode := some ("G502"), budgetType := some ("Group B"),
         expenseCode := some ("521"), expenseDetail := ("item three") }] := by
  decide

/-- C4 counterexample: a whitespace-only account cell is not dropped; it
survives the NA-based row drop as the empty string and reaches the output
as a row whose Expense_Code is NA, so the output contains a row without a
non-empty Expense_Code, contrary to the claim. -/
theorem claim_C4_cex :
    convert_rows true [some ("   ")] =
      [{ budgetCode := none, budgetType := none, expenseCode := none,
         expenseDetail := ("") }] ∧
    (convert_rows true [some ("   ")]).length = 1 := by
  exact ⟨by decide, by decide⟩

/-- C4 (amended): whenever an output row's Expense_Code is present (not NA)
it is a non-empty string; rows with an NA account are dropped, but a
whitespace-only or empty account cell survives with an NA Expense_Code
instead of being dropped. -/
theorem claim_C4 (keep : Bool) (col : List (Option String)) (r : OutRow)
    (t : String) (hr : r ∈ convert_rows keep col) (ht : r.expenseCode = some t) :
    t ≠ "" := by
  simp only [convert_rows] at hr
  rcases List.mem_map.mp hr with ⟨x, hx, hrx⟩
  subst hrx
  have hcode : (out_row x.1 x.2.1 x.2.2).expenseCode
      = ((pyTokensL (stripL x.2.2.data)).head?).map String.mk := rfl
  rw [hcode] at ht
  cases htk : pyTokensL (stripL x.2.2.data) with
  | nil => rw [htk] at ht; simp at ht
  | cons a l =>
    rw [htk] at ht
    simp only [List.head?_cons, Option.map_some', Option.some.injEq] at ht
    have hamem : a ∈ tokensAux (stripL x.2.2.data) [] := by
      have : a ∈ pyTokensL (stripL x.2.2.data) := by
        rw [htk]; exact List.mem_cons_self a l
      simpa [pyTokensL] using this
    have hane : a ≠ [] := tokensAux_ne_nil (stripL x.2.2.data) [] a hamem
    subst ht
    intro hemp
    apply hane
    have hd := congrArg String.data hemp
    simpa using hd

/-- C4 witness: a concrete output row with a present Expense_Code, at which
the amended invariant applies and yields a non-empty token. -/
theorem claim_C4_witness :
    ({ budgetCode := none, budgetType := none, expenseCode := some ("511"),
       expenseDetail := ("x") } : OutRow) ∈ convert_rows true [some ("511 x")] ∧
    ("511" : String) ≠ "" := by
  refine ⟨by decide, ?_⟩
  exact claim_C4 true [some ("511 x")]
    { budgetCode := none, budgetType := none, expenseCode := some ("511"),
      expenseDetail := ("x") } ("511") (by decide) (by decide)

/-- Header helper: the header row exists exactly when at least 10 raw rows
exist (the drops of lines 72-73 leave a row to promote only then). -/
theorem header_row_isSome (raw : List (List Cell)) :
    (header_row raw).isSome = true ↔ 10 ≤ raw.length := by
  unfold header_row
  cases hd : raw.drop 9 with
  | nil =>
    have hlen : raw.length ≤ 9 := List.drop_eq_nil_iff.mp hd
    simp [hd]
    omega
  | cons x xs =>
    have hlen : ¬ raw.length ≤ 9 := by
      intro hle
      rw [List.drop_eq_nil_iff.mpr hle] at hd
      exact List.noConfusion hd
    simp [hd]
    omega

/-- C7 counterexample: a 5-row sheet.  The row drops themselves tolerate it,
but the header promotion of line 76 has no row left and the conversion
raises the positional IndexError instead of proceeding. -/
theorem claim_C7_cex :
    convert_budget_columns (List.replicate 5 [Cell.na]) =
      Except.error INDEX_ERROR_MSG := by
  rfl

/-- C7 (amended): the drops of rows 0-8 and of the stray row are tolerant
(a sheet of exactly 10 rows, lacking the stray row, still works), but a
sheet with at most 9 rows leaves no row to promote to the header and the
header stage raises the positional IndexError; it raises exactly then. -/
theorem claim_C7 (raw : List (List Cell)) :
    convert_budget_columns raw = Except.error INDEX_ERROR_MSG ↔ raw.length < 10 := by
  unfold convert_budget_columns
  cases hc : columns_after_rename raw with
  | none =>
    have hh : header_row raw = none := by
      unfold columns_after_rename at hc
      cases hhr : header_row raw with
      | none => rfl
      | some hdr => rw [hhr] at hc; simp at hc
    have h9 : ¬ 10 ≤ raw.length := by
      intro h10
      have := (header_row_isSome raw).mpr h10
      rw [hh] at this
      simp at this
    simp
    omega
  | some cols =>
    have h10 : 10 ≤ raw.length := by
      apply (header_row_isSome raw).mp
      unfold columns_after_rename at hc
      cases hhr : header_row raw with
      | none => rw [hhr] at hc; simp at hc
      | some hdr => simp [hhr]
    show (if cols.contains ("Budget_Account") = true then Except.ok cols
          else Except.error KEY_ERROR_MSG) = Except.error INDEX_ERROR_MSG ↔
        raw.length < 10
    by_cases hba : cols.contains ("Budget_Account") = true
    · rw [if_pos hba]
      constructor
      · intro h
        exact Except.noConfusion h
      · intro hlt
        exact absurd h10 (by omega)
    · rw [if_neg hba]
      constructor
      · intro h
        injection h with h2
        exact absurd h2 (by decide)
      · intro hlt
        exact absurd h10 (by omega)

/-- C3: whenever the header stage completes (a header row exists), the
labelled missing-column KeyError of line 89 is raised exactly when no header
cell, rendered, stripped and renamed, equals Budget_Account; when one does,
that error is not raised.  The error constructor carries no column list, so
no output table is produced on that path. -/
theorem claim_C3 (raw : List (List Cell)) (hdr : List Cell)
    (hh : header_row raw = some hdr) :
    convert_budget_columns raw = Except.error KEY_ERROR_MSG ↔
      ¬ ∃ c ∈ hdr, rename_col (pyStrip (pyStrip (cell_str c))) = ("Budget_Account") := by
  unfold convert_budget_columns columns_after_rename
  rw [hh]
  simp only [Option.map_some']
  have key : ∀ hs2 : List String,
      ((hs2.map rename_col).contains ("Budget_Account") = true ↔
        ∃ h ∈ hs2, rename_col h = ("Budget_Account")) := by
    intro hs2
    rw [List.elem_iff]
    constructor
    · intro hmem
      rcases List.mem_map.mp hmem with ⟨h, hh2, hr⟩
      exact ⟨h, hh2, hr⟩
    · rintro ⟨h, hh2, hr⟩
      exact List.mem_map.mpr ⟨h, hh2, hr⟩
  have key2 :
      ((let hs := hdr.map (fun c => pyStrip (pyStrip (cell_str c)))
        let hs2 := if hs.contains ("Year") then hs else hs ++ [("Year")]
        hs2.map rename_col).contains ("Budget_Account") = true) ↔
      ∃ c ∈ hdr, rename_col (pyStrip (pyStrip (cell_str c))) = ("Budget_Account") := by
    simp only []
    rw [key]
    constructor
    · rintro ⟨h, hh2, hr⟩
      by_cases hy : (hdr.map (fun c => pyStrip (pyStrip (cell_str c)))).contains ("Year") = true
      · rw [if_pos hy] at hh2
        rcases List.mem_map.mp hh2 with ⟨c, hc, hcs⟩
        exact ⟨c, hc, by rw [hcs]; exact hr⟩
      · rw [if_neg hy] at hh2
        rcases List.mem_append.mp hh2 with hh3 | hh3
        · rcases List.mem_map.mp hh3 with ⟨c, hc, hcs⟩
          exact ⟨c, hc, by rw [hcs]; exact hr⟩
        · exfalso
          have : h = ("Year") := by simpa using hh3
          rw [this] at hr
          exact absurd hr (by decide)
    · rintro ⟨c, hc, hr⟩
      refine ⟨pyStrip (pyStrip (cell_str c)), ?_, hr⟩
      by_cases hy : (hdr.map (fun c => pyStrip (pyStrip (cell_str c)))).contains ("Year") = true
      · rw [if_pos hy]
        exact List.mem_map.mpr ⟨c, hc, rfl⟩
      · rw [if_neg hy]
        exact List.mem_append.mpr (Or.inl (List.mem_map.mpr ⟨c, hc, rfl⟩))
  constructor
  · intro herr hex
    have hmem := key2.mpr hex
    rw [if_pos hmem] at herr
    exact Except.noConfusion herr
  · intro hnex
    have hmem : ¬ ((let hs := hdr.map (fun c => pyStrip (pyStrip (cell_str c)))
        let hs2 := if hs.contains ("Year") then hs else hs ++ [("Year")]
        hs2.map rename_col).contains ("Budget_Account") = true) := fun h2 => hnex (key2.mp h2)
    rw [if_neg hmem]

/-- C3 witness: a 10-row sheet whose surviving header row has a single
column x; the header stage completes, no cell renames to Budget_Account,
and the labelled KeyError is raised. -/
theorem claim_C3_witness :
    header_row (List.replicate 9 [Cell.na] ++ [[Cell.str ("x")]]) =
      some [Cell.str ("x")] ∧
    convert_budget_columns (List.replicate 9 [Cell.na] ++ [[Cell.str ("x")]]) =
      Except.error KEY_ERROR_MSG := by
  refine ⟨by rfl, ?_⟩
  exact (claim_C3 (List.replicate 9 [Cell.na] ++ [[Cell.str ("x")]])
    [Cell.str ("x")] (by rfl)).mpr (by decide)

/-- Fold helper: while no marker has been seen, a non-NA account row is
emitted with the untouched initial group state. -/
theorem fold_before_marker (keep : Bool) :
    ∀ (col : List (Option String)) (i : Nat) (v : Option String) (s : String),
    (∀ j, j ≤ i → ∀ w, col[j]? = some w →
      (normalize_account w).bind (group_extract keep) = none) →
    col[i]? = some v → normalize_account v = some s →
    (none, none, s) ∈ surv_fold keep none none col := by
  intro col
  induction col with
  | nil =>
    intro i v s hm hv hs
    simp at hv
  | cons w ws ih =>
    intro i v s hm hv hs
    have hm0 : (normalize_account w).bind (group_extract keep) = none :=
      hm 0 (Nat.zero_le i) w (by simp)
    rw [surv_fold, hm0]
    cases hw : normalize_account w with
    | none =>
      cases i with
      | zero =>
        rw [List.getElem?_cons_zero] at hv
        cases hv
        rw [hw] at hs
        exact Option.noConfusion hs
      | succ k =>
        rw [List.getElem?_cons_succ] at hv
        exact ih k v s
          (fun j hj w2 hw2 => hm (j + 1) (Nat.succ_le_succ hj) w2 (by simpa using hw2))
          hv hs
    | some str =>
      cases i with
      | zero =>
        rw [List.getElem?_cons_zero] at hv
        cases hv
        rw [hw] at hs
        cases hs
        exact List.mem_cons_self _ _
      | succ k =>
        rw [List.getElem?_cons_succ] at hv
        exact List.mem_cons_of_mem _
          (ih k v s
            (fun j hj w2 hw2 => hm (j + 1) (Nat.succ_le_succ hj) w2 (by simpa using hw2))
            hv hs)

/-- C9: a data row (its normalized account present and matching no marker)
located before the first marker row is retained in the output and carries
NA in both Budget_Code and Budget_Type. -/
theorem claim_C9 (keep : Bool) (col : List (Option String)) (i : Nat)
    (v : Option String) (s : String)
    (hm : ∀ j, j ≤ i → ∀ w, col[j]? = some w →
      (normalize_account w).bind (group_extract keep) = none)
    (hv : col[i]? = some v) (hs : normalize_account v = some s) :
    out_row none none s ∈ convert_rows keep col := by
  rw [convert_rows_eq_fold]
  have hmem := fold_before_marker keep col i v s hm hv hs
  exact List.mem_map.mpr ⟨(none, none, s), hmem, rfl⟩

/-- C9 witness: a single data row with no marker anywhere before it
survives with NA group fields. -/
theorem claim_C9_witness :
    out_row none none ("511 x") ∈ convert_rows true [some ("511 x")] := by
  apply claim_C9 true [some ("511 x")] 0 (some ("511 x")) ("511 x")
  · intro j hj w hw
    have hj0 : j = 0 := Nat.le_zero.mp hj
    subst hj0
    simp only [List.getElem?_cons_zero, Option.some.injEq] at hw
    subst hw
    decide
  · rfl
  · rfl

/-- C10 counterexample: the value G501: (valid code, colon, nothing after)
is indeed not a marker and survives as a data row, but its Expense_Code is
the whole token G501: (the colon is kept), not the bare code token G501 the
claim describes. -/
theorem claim_C10_cex :
    convert_rows true [some ("G777: Ctx"), some ("G501:")] =
      [{ budgetCode := some ("G777"), budgetType := some ("Ctx"),
         expenseCode := some ("G501:"), expenseDetail := ("") }] ∧
    (some ("G501:") : Option String) ≠ some ("G501") := by
  exact ⟨by decide, by decide⟩

/-- C10 (amended): a value consisting of a valid code, a colon and nothing
(or only whitespace) after it never matches the marker pattern, so it does
not update the forward-filled group fields and survives as a data row; its
Expense_Code is its leading whitespace-delimited token: the bare code when
whitespace separates code from colon (G501 :), and the code with the colon
attached when not (G501:). -/
theorem claim_C10 :
    (∀ keep : Bool, ∀ n : Nat,
      group_extract keep
        (String.mk ('G' :: '5' :: '0' :: '1' :: ':' :: List.replicate n (' '))) = none) ∧
    convert_rows true
      [some ("G777: Ctx"), some ("G501:"), some ("G501 : "), some ("511 a")] =
      [{ budgetCode := some ("G777"), budgetType := some ("Ctx"),
         expenseCode := some ("G501:"), expenseDetail := ("") },
       { budgetCode := some ("G777"), budgetType := some ("Ctx"),
         expenseCode := some ("G501"), expenseDetail := (":") },
       { budgetCode := some ("G777"), budgetType := some ("Ctx"),
         expenseCode := some ("511"), expenseDetail := ("a") }] := by
  constructor
  · intro keep n
    have hall : (List.replicate n (' ')).all isSpc = true := by
      rw [List.all_eq_true]
      intro x hx
      rw [List.eq_of_mem_replicate hx]
      decide
    have hdrop : (List.replicate n (' ')).dropWhile isSpc = [] :=
      dropWhile_all isSpc _ hall
    have hac : after_colon (':' :: List.replicate n (' ')) = none := by
      unfold after_colon
      rw [List.dropWhile_cons_of_neg (by decide)]
      simp [hdrop]
    have hgm : group_match ('G' :: '5' :: '0' :: '1' :: ':' :: List.replicate n (' ')) =
        (match after_colon (':' :: List.replicate n (' ')) with
         | some t => some ((['G', '5', '0', '1'] : List Char), ([] : List Char), t)
         | none => none) := rfl
    unfold group_extract
    rw [show (String.mk ('G' :: '5' :: '0' :: '1' :: ':' :: List.replicate n (' '))).data
        = 'G' :: '5' :: '0' :: '1' :: ':' :: List.replicate n (' ') from rfl]
    rw [hgm, hac]
    rfl
  · decide

/-- List helper: dropWhile never lengthens a list. -/
theorem length_dropWhile_le {a} (p : a → Bool) (l : List a) :
    (l.dropWhile p).length ≤ l.length := by
  induction l with
  | nil => simp
  | cons x xs ih =>
    by_cases hp : p x
    · rw [List.dropWhile_cons_of_pos hp]
      exact Nat.le_succ_of_le ih
    · rw [List.dropWhile_cons_of_neg hp]

/-- List helper: every element kept by takeWhile satisfies the predicate. -/
theorem all_takeWhile {a} (p : a → Bool) (l : List a) :
    (l.takeWhile p).all p = true := by
  induction l with
  | nil => simp
  | cons x xs ih =>
    by_cases hp : p x
    · rw [List.takeWhile_cons_of_pos hp]
      simp [hp, ih]
    · rw [List.takeWhile_cons_of_neg hp]
      simp

/-- Strip helper: a strip-fixed non-empty character list starts with a
non-whitespace character. -/
theorem stripL_head_not_spc (l : List Char) (c : Char) (cs : List Char)
    (hl : stripL l = l) (hcons : l = c :: cs) : isSpc c = false := by
  by_contra hc
  have hc2 : isSpc c = true := by revert hc; cases isSpc c <;> simp
  have key : (stripL l).length ≤ cs.length := by
    unfold stripL
    have e1 : ((l.dropWhile isSpc).reverse.dropWhile isSpc).reverse.length
        ≤ (l.dropWhile isSpc).length := by
      rw [List.length_reverse]
      calc ((l.dropWhile isSpc).reverse.dropWhile isSpc).length
          ≤ (l.dropWhile isSpc).reverse.length := length_dropWhile_le _ _
        _ = (l.dropWhile isSpc).length := List.length_reverse _
    have e2 : (l.dropWhile isSpc).length ≤ cs.length := by
      rw [hcons, List.dropWhile_cons_of_pos hc2]
      exact length_dropWhile_le _ _
    exact le_trans e1 e2
  rw [hl, hcons] at key
  simp at key

/-- C8 (amended): for every surviving account value that contains at least
one non-whitespace character, the splitter yields the text before the first
whitespace run as Expense_Code and the remaining tokens rejoined with
single spaces as Expense_Detail; the wholly-empty surviving value instead
yields an NA Expense_Code (see the counterexample). -/
theorem claim_C8 (s : String) (h1 : pyStrip s = s) (h2 : s ≠ "") :
    split_fields s = (some (text_before_ws s), detail_after_ws s) := by
  have hdata : stripL s.data = s.data := congrArg String.data h1
  have hne : s.data ≠ [] := by
    intro h0
    apply h2
    have hs : s = String.mk s.data := rfl
    rw [hs, h0]
  obtain ⟨c, cs, hcons⟩ : ∃ c cs, s.data = c :: cs := by
    cases hd : s.data with
    | nil => exact absurd hd hne
    | cons a l => exact ⟨a, l, rfl⟩
  have hc : isSpc c = false := stripL_head_not_spc s.data c cs hdata hcons
  have hane : s.data.takeWhile (fun x => !isSpc x) ≠ [] := by
    rw [hcons, List.takeWhile_cons_of_pos (by simp [hc])]
    simp
  have haall : (s.data.takeWhile (fun x => !isSpc x)).all (fun x => !isSpc x) = true := by
    exact all_takeWhile _ _
  have hbcase : s.data.dropWhile (fun x => !isSpc x) = [] ∨
      ∃ x xs, s.data.dropWhile (fun x => !isSpc x) = x :: xs ∧ isSpc x = true := by
    cases hbv : s.data.dropWhile (fun x => !isSpc x) with
    | nil => exact Or.inl rfl
    | cons x xs =>
      refine Or.inr ⟨x, xs, rfl, ?_⟩
      have hxf := dropWhile_head_false (fun x => !isSpc x) s.data x xs hbv
      simpa using hxf
  have htok : pyTokensL s.data =
      s.data.takeWhile (fun x => !isSpc x) :: pyTokensL (s.data.dropWhile (fun x => !isSpc x)) := by
    conv_lhs => rw [← List.takeWhile_append_dropWhile (p := fun x => !isSpc x) (l := s.data)]
    exact pyTokensL_split _ _ hane haall hbcase
  unfold split_fields
  rw [hdata, htok]
  rfl

/-- C8 counterexample: the empty string is a possible surviving account
value (a whitespace-only cell survives the NA drop as the empty string),
and on it the splitter returns an NA Expense_Code, not the claimed text
before the first whitespace run (which would be the present empty string). -/
theorem claim_C8_cex :
    (convert_rows true [some ("   ")]).length = 1 ∧
    split_fields ("") = (none, ("")) ∧
    (none : Option String) ≠ some (text_before_ws ("")) := by
  refine ⟨by decide, by decide, by decide⟩

/-- C8 witness: the amended splitter contract applied at a concrete
three-token value. -/
theorem claim_C8_witness :
    pyStrip ("511 ab cd") = ("511 ab cd") ∧
    split_fields ("511 ab cd") =
      (some (text_before_ws ("511 ab cd")), detail_after_ws ("511 ab cd")) := by
  refine ⟨by decide, ?_⟩
  exact claim_C8 ("511 ab cd") (by decide) (by decide)

/-- Year helper: for every year in the accepted range [1900, 2100], the
rendered string either matches (19|20)\d\d or is the string 2100. -/
theorem year_str_ok : ∀ y : Nat, 1900 ≤ y → y ≤ 2100 →
    (validYearB (toString y) || (toString y == ("2100"))) = true := by
  have hall : ((List.range' 1900 201).all
      (fun y => validYearB (toString y) || (toString y == ("2100")))) = true := by decide
  intro y h1 h2
  have hy : y ∈ List.range' 1900 201 := List.mem_range'_1.mpr ⟨h1, by omega⟩
  exact List.all_eq_true.mp hall _ hy

/-- Year helper: every hit of the (19|20)\d\d search is a valid year string. -/
theorem find_year_valid (cs : List Char) :
    ∀ t, find_year cs = some t → validYearB (String.mk t) = true := by
  induction cs with
  | nil => intro t h; simp [find_year] at h
  | cons c1 rest ih =>
    intro t h
    cases rest with
    | nil => simp [find_year] at h
    | cons c2 rest2 =>
      cases rest2 with
      | nil => simp [find_year] at h
      | cons c3 rest3 =>
        cases rest3 with
        | nil => simp [find_year] at h
        | cons c4 r5 =>
          rw [find_year] at h
          by_cases hg : (((c1 = '1' && c2 = '9') || (c1 = '2' && c2 = '0'))
              && (c3.isDigit && c4.isDigit)) = true
          · rw [if_pos hg] at h
            have ht : t = [c1, c2, c3, c4] := by
              have := h
              injection this with h2
              exact h2.symm
            subst ht
            exact hg
          · rw [if_neg hg] at h
            exact ih t h

/-- Year helper: a single cell yields the empty string, a valid year string,
or exactly the string 2100 (the latter only on the date path). -/
theorem yearv_inv (c : Cell) :
    extract_year_from_value c = "" ∨
      validYearB (extract_year_from_value c) = true ∨
      extract_year_from_value c = ("2100") := by
  cases c with
  | na => exact Or.inl rfl
  | str s =>
    have hgoal : extract_year_from_value (Cell.str s)
        = (match find_year s.data with
           | some t => String.mk t
           | none => "") := rfl
    rw [hgoal]
    cases hf : find_year s.data with
    | none => exact Or.inl rfl
    | some t => exact Or.inr (Or.inl (find_year_valid s.data t hf))
  | date y =>
    have hgoal : extract_year_from_value (Cell.date y)
        = (if (decide (1900 ≤ y) && decide (y ≤ 2100)) = true then toString y
           else match find_year (date_str y).data with
             | some t => String.mk t
             | none => "") := rfl
    rw [hgoal]
    by_cases hy : (decide (1900 ≤ y) && decide (y ≤ 2100)) = true
    · rw [if_pos hy]
      simp only [Bool.and_eq_true, decide_eq_true_eq] at hy
      have h := year_str_ok y hy.1 hy.2
      rw [Bool.or_eq_true] at h
      rcases h with h1 | h2
      · exact Or.inr (Or.inl h1)
      · exact Or.inr (Or.inr (eq_of_beq h2))
    · rw [if_neg hy]
      cases hf : find_year (date_str y).data with
      | none => exact Or.inl rfl
      | some t => exact Or.inr (Or.inl (find_year_valid _ t hf))

/-- Scan helper: a row scan returns the empty string or some cell's value. -/
theorem scan_row_inv (cs : List Cell) :
    scan_row cs = "" ∨ ∃ c, scan_row cs = extract_year_from_value c := by
  induction cs with
  | nil => exact Or.inl rfl
  | cons c cs ih =>
    by_cases hy : extract_year_from_value c = ""
    · rw [scan_row]
      simp only [hy, if_pos]
      simpa using ih
    · right
      exact ⟨c, by rw [scan_row]; simp [hy]⟩

/-- Scan helper: the region scan returns the empty string or some cell's
value. -/
theorem scan_rows_inv (rows : List (List Cell)) :
    scan_rows rows = "" ∨ ∃ c, scan_rows rows = extract_year_from_value c := by
  induction rows with
  | nil => exact Or.inl rfl
  | cons r rs ih =>
    by_cases hy : scan_row (r.take 6) = ""
    · rw [scan_rows]
      simp only [hy, if_pos]
      simpa using ih
    · rcases scan_row_inv (r.take 6) with h | ⟨c, hc⟩
      · exact absurd h hy
      · right
        exact ⟨c, by rw [scan_rows]; simp [hy]; exact hc⟩

/-- C5 counterexample: a sheet whose probe cell is a date-like value with
calendar year 2100, inside the accepted range [1900, 2100]; the attached
Year is 2100, which is non-empty and does not match (19|20)\d\d. -/
theorem claim_C5_cex :
    extract_year [[Cell.na], [Cell.na], [Cell.na], [Cell.na], [Cell.na],
      [Cell.date 2100]] = ("2100") ∧
    validYearB ("2100") = false ∧ ("2100" : String) ≠ "" := by
  refine ⟨by decide, by decide, by decide⟩

/-- C5 (amended): the Year attached to output rows is the empty string, a
4-digit string matching (19|20)\d\d, or exactly the string 2100 - the one
value of the date-path range [1900, 2100] that escapes the pattern. -/
theorem claim_C5 (raw : List (List Cell)) :
    extract_year raw = "" ∨ validYearB (extract_year raw) = true ∨
      extract_year raw = ("2100") := by
  unfold extract_year
  by_cases hp : year_probe raw = ""
  · rw [if_pos hp]
    rcases scan_rows_inv (raw.take 25) with h | ⟨c, hc⟩
    · exact Or.inl h
    · rw [hc]
      exact yearv_inv c
  · rw [if_neg hp]
    unfold year_probe at hp
    unfold year_probe
    cases h5 : (raw[5]?).bind (fun row => row[0]?) with
    | none =>
      rw [h5] at hp
      exact absurd rfl hp
    | some c => exact yearv_inv c

/-- List helper: find? over an append tries the left part first. -/
theorem find?_append_or {a} (p : a → Bool) (l1 l2 : List a) :
    (l1 ++ l2).find? p =
      (match l1.find? p with
       | some x => some x
       | none => l2.find? p) := by
  induction l1 with
  | nil => rfl
  | cons x l ih =>
    by_cases hp : p x = true
    · rw [List.cons_append, List.find?_cons_of_pos _ hp, List.find?_cons_of_pos _ hp]
    · rw [List.cons_append, List.find?_cons_of_neg _ (by simpa using hp),
        List.find?_cons_of_neg _ (by simpa using hp)]
      exact ih

/-- Scan helper: the inner row loop equals a find? over the per-cell
results, defaulting to the empty string. -/
theorem scan_row_find (cs : List Cell) :
    scan_row cs =
      ((cs.map extract_year_from_value).find? (fun y => !(y == ""))).getD "" := by
  induction cs with
  | nil => rfl
  | cons c cs ih =>
    rw [show scan_row (c :: cs)
        = (if extract_year_from_value c = "" then scan_row cs
           else extract_year_from_value c) from rfl]
    by_cases hy : extract_year_from_value c = ""
    · rw [if_pos hy, List.map_cons, List.find?_cons_of_neg _ (by simp [hy])]
      exact ih
    · rw [if_neg hy, List.map_cons, List.find?_cons_of_pos _ (by simp [hy])]
      rfl

/-- Scan helper: the nested 25 x 6 loop equals a find? over the flattened
row-major cell results, defaulting to the empty string. -/
theorem scan_rows_find (rows : List (List Cell)) :
    scan_rows rows =
      (((rows.map (fun r => r.take 6)).flatten.map extract_year_from_value).find?
        (fun y => !(y == ""))).getD "" := by
  induction rows with
  | nil => rfl
  | cons r rs ih =>
    have hsplit : ((r :: rs).map (fun r => r.take 6)).flatten.map extract_year_from_value
        = (r.take 6).map extract_year_from_value
          ++ ((rs.map (fun r => r.take 6)).flatten.map extract_year_from_value) := by
      simp
    rw [show scan_rows (r :: rs)
        = (if scan_row (r.take 6) = "" then scan_rows rs else scan_row (r.take 6)) from rfl]
    rw [hsplit, find?_append_or]
    by_cases hy : scan_row (r.take 6) = ""
    · rw [if_pos hy]
      have hnone : ((r.take 6).map extract_year_from_value).find? (fun y => !(y == ""))
          = none := by
        cases hf : ((r.take 6).map extract_year_from_value).find? (fun y => !(y == "")) with
        | none => rfl
        | some x =>
          exfalso
          have hpx := List.find?_some hf
          have hs := scan_row_find (r.take 6)
          rw [hf] at hs
          rw [hy] at hs
          have hx : x = "" := by simpa using hs.symm
          rw [hx] at hpx
          simp at hpx
      rw [hnone]
      exact ih
    · rw [if_neg hy]
      have hsome : ((r.take 6).map extract_year_from_value).find? (fun y => !(y == ""))
          = some (scan_row (r.take 6)) := by
        have hs := scan_row_find (r.take 6)
        cases hf : ((r.take 6).map extract_year_from_value).find? (fun y => !(y == "")) with
        | none => rw [hf] at hs; exact absurd hs hy
        | some x =>
          rw [hf] at hs
          rw [hs]
          rfl
      rw [hsome]
      rfl

/-- C6: extract_year returns the probe cell's year when the probe at
raw.iloc[5,0] yields one, otherwise the first year produced by any cell of
the top-left 25 x 6 region in row-major order, otherwise the empty string;
it is a total function (never raises). -/
theorem claim_C6 (raw : List (List Cell)) :
    extract_year raw =
      if year_probe raw = "" then
        ((((raw.take 25).map (fun r => r.take 6)).flatten.map extract_year_from_value).find?
          (fun y => !(y == ""))).getD ""
      else year_probe raw := by
  unfold extract_year
  by_cases hp : year_probe raw = ""
  · rw [if_pos hp, if_pos hp, scan_rows_find]
  · rw [if_neg hp, if_neg hp]

/-- Regex-tail helper (soundness): a successful \s*:\s*(.+)$ parse splits
its input into a whitespace run, the colon and a remainder whose trimmed
text is the non-empty, newline-free capture. -/
theorem after_colon_eq_some (rest t : List Char) (h : after_colon rest = some t) :
    ∃ sep post, rest = sep ++ ':' :: post ∧ sep.all isSpc = true ∧
      post.dropWhile isSpc = t ∧ t ≠ [] ∧ t.contains '\n' = false := by
  unfold after_colon at h
  split at h
  next post heq =>
    have h2 : (if ((post.dropWhile isSpc).isEmpty || (post.dropWhile isSpc).contains '\n') = true
        then (none : Option (List Char)) else some (post.dropWhile isSpc)) = some t := h
    by_cases hcond : ((post.dropWhile isSpc).isEmpty || (post.dropWhile isSpc).contains '\n') = true
    · rw [if_pos hcond] at h2
      exact absurd h2 (by simp)
    · rw [if_neg hcond] at h2
      injection h2 with ht
      rw [Bool.or_eq_true] at hcond
      push_neg at hcond
      refine ⟨rest.takeWhile isSpc, post, ?_, all_takeWhile _ _, ht, ?_, ?_⟩
      · conv_lhs => rw [← List.takeWhile_append_dropWhile (p := isSpc) (l := rest)]
        rw [heq]
      · intro h0
        rw [h0] at ht
        exact hcond.1 (by rw [ht]; rfl)
      · have hnc := hcond.2
        rw [ht] at hnc
        cases hb : t.contains '\n' with
        | false => rfl
        | true => exact absurd hb hnc
  next heq =>
    exact absurd h (by simp)

/-- Regex-tail helper (completeness): a whitespace run, the colon and a
remainder with non-empty newline-free trimmed text parse successfully,
capturing that text. -/
theorem after_colon_of (sep post : List Char) (hsep : sep.all isSpc = true)
    (hne : post.dropWhile isSpc ≠ [])
    (hnl : (post.dropWhile isSpc).contains '\n' = false) :
    after_colon (sep ++ ':' :: post) = some (post.dropWhile isSpc) := by
  have hie : (post.dropWhile isSpc).isEmpty = false := by
    cases hdw : post.dropWhile isSpc with
    | nil => exact absurd hdw hne
    | cons a l => rfl
  unfold after_colon
  rw [dropWhile_append_all isSpc sep _ hsep, List.dropWhile_cons_of_neg (by decide)]
  show (if ((post.dropWhile isSpc).isEmpty || (post.dropWhile isSpc).contains '\n') = true
      then (none : Option (List Char)) else some (post.dropWhile isSpc))
    = some (post.dropWhile isSpc)
  rw [if_neg (by rw [hie, hnl]; simp)]

theorem group_match_cons (d1 d2 d3 : Char) (rest : List Char)
    (hdig : (d1.isDigit && d2.isDigit && d3.isDigit) = true) :
    group_match ('G' :: d1 :: d2 :: d3 :: rest) =
      (match rest with
       | '_' :: r =>
         if (r.takeWhile sufChar).isEmpty then none
         else
           match after_colon (r.dropWhile sufChar) with
           | some t => some (['G', d1, d2, d3], '_' :: (r.takeWhile sufChar), t)
           | none => none
       | _ =>
         match after_colon rest with
         | some t => some (['G', d1, d2, d3], [], t)
         | none => none) := by
  have hred : group_match ('G' :: d1 :: d2 :: d3 :: rest) =
      (if (d1.isDigit && d2.isDigit && d3.isDigit) = true then
        (match rest with
         | '_' :: r =>
           if (r.takeWhile sufChar).isEmpty then none
           else
             match after_colon (r.dropWhile sufChar) with
             | some t => some (['G', d1, d2, d3], '_' :: (r.takeWhile sufChar), t)
             | none => none
         | _ =>
           match after_colon rest with
           | some t => some (['G', d1, d2, d3], [], t)
           | none => none)
       else none) := rfl
  rw [hred, if_pos hdig]

/-- Marker-parser soundness: a successful parse yields the spec-side
decomposition of the amended pattern. -/
theorem group_match_sound (cs : List Char) (x : List Char × List Char × List Char)
    (h : group_match cs = some x) : SpecMarker cs := by
  unfold group_match at h
  split at h
  next d1 d2 d3 rest =>
    by_cases hdig : (d1.isDigit && d2.isDigit && d3.isDigit) = true
    · rw [if_pos hdig] at h
      rw [Bool.and_eq_true, Bool.and_eq_true] at hdig
      split at h
      next junkv r =>
        have h2 : (if ((r.takeWhile sufChar).isEmpty) = true
            then (none : Option (List Char × List Char × List Char))
            else match after_colon (r.dropWhile sufChar) with
              | some t => some ((['G', d1, d2, d3] : List Char), '_' :: (r.takeWhile sufChar), t)
              | none => none) = some x := h
        by_cases hbody : ((r.takeWhile sufChar).isEmpty) = true
        · rw [if_pos hbody] at h2
          exact absurd h2 (by simp)
        · rw [if_neg hbody] at h2
          cases hac : after_colon (r.dropWhile sufChar) with
          | none => rw [hac] at h2; exact absurd h2 (by simp)
          | some t =>
            rcases after_colon_eq_some _ t hac with ⟨sep, post, hsplit, hsep, hdw, htne, htnl⟩
            refine ⟨d1, d2, d3, '_' :: (r.takeWhile sufChar), sep, post, ?_,
              hdig.1.1, hdig.1.2, hdig.2, Or.inr ⟨r.takeWhile sufChar, rfl, ?_, all_takeWhile _ _⟩,
              hsep, ?_, ?_⟩
            · simp only [List.cons_append, List.cons.injEq, true_and]
              conv_lhs => rw [← List.takeWhile_append_dropWhile (p := sufChar) (l := r)]
              rw [hsplit, List.append_assoc]
            · intro h0
              rw [h0] at hbody
              exact hbody rfl
            · rw [hdw]; exact htne
            · rw [hdw]; exact htnl
      next hnu =>
        cases hac : after_colon rest with
        | none => rw [hac] at h; exact absurd h (by simp)
        | some t =>
          rcases after_colon_eq_some _ t hac with ⟨sep, post, hsplit, hsep, hdw, htne, htnl⟩
          refine ⟨d1, d2, d3, [], sep, post, ?_, hdig.1.1, hdig.1.2, hdig.2, Or.inl rfl,
            hsep, ?_, ?_⟩
          · rw [List.nil_append, ← hsplit]
          · rw [hdw]; exact htne
          · rw [hdw]; exact htnl
    · rw [if_neg hdig] at h
      exact absurd h (by simp)
  next hne =>
    exact absurd h (by simp)

/-- Shape helper: a whitespace run followed by a colon never starts with an
underscore. -/
theorem sep_colon_ne_underscore (sep post r : List Char) (hsep : sep.all isSpc = true)
    (heq : sep ++ ':' :: post = '_' :: r) : False := by
  cases sep with
  | nil =>
    rw [List.nil_append] at heq
    injection heq with h1 h2
    exact absurd h1 (by decide)
  | cons a s2 =>
    rw [List.cons_append] at heq
    injection heq with h1 h2
    rw [List.all_cons, Bool.and_eq_true] at hsep
    rw [h1] at hsep
    exact absurd hsep.1 (by decide)

/-- Shape helper: whitespace characters are not suffix characters. -/
theorem sufChar_of_spc (a : Char) (ha : isSpc a = true) : sufChar a = false := by
  simp [sufChar, ha]

/-- Marker-parser completeness: every string of the spec-side decomposition
is accepted by the parser. -/
theorem group_match_complete (cs : List Char) (h : SpecMarker cs) :
    (group_match cs).isSome = true := by
  obtain ⟨d1, d2, d3, suffix, sep, post, hcs, hd1, hd2, hd3, hsuf, hsep, hne, hnl⟩ := h
  subst hcs
  have hdig : (d1.isDigit && d2.isDigit && d3.isDigit) = true := by
    rw [hd1, hd2, hd3]; rfl
  rw [group_match_cons d1 d2 d3 _ hdig]
  have htwtail : (sep ++ ':' :: post).takeWhile sufChar = [] := by
    cases sep with
    | nil =>
      rw [List.nil_append, List.takeWhile_cons_of_neg (by decide)]
    | cons a s2 =>
      rw [List.all_cons, Bool.and_eq_true] at hsep
      rw [List.cons_append, List.takeWhile_cons_of_neg (by simp [sufChar_of_spc a hsep.1])]
  have hdwtail : (sep ++ ':' :: post).dropWhile sufChar = sep ++ ':' :: post := by
    cases sep with
    | nil =>
      rw [List.nil_append, List.dropWhile_cons_of_neg (by decide)]
    | cons a s2 =>
      rw [List.all_cons, Bool.and_eq_true] at hsep
      rw [List.cons_append, List.dropWhile_cons_of_neg (by simp [sufChar_of_spc a hsep.1])]
  rcases hsuf with hnil | ⟨b, hb, hbne, hball⟩
  · subst hnil
    rw [List.nil_append]
    split
    next junkv r heq =>
      exact absurd heq (by intro he; exact sep_colon_ne_underscore sep post r hsep he)
    next =>
      rw [after_colon_of sep post hsep hne hnl]
      rfl
  · subst hb
    have hshape : ('_' :: b) ++ sep ++ ':' :: post = '_' :: (b ++ (sep ++ ':' :: post)) := by
      simp [List.cons_append, List.append_assoc]
    rw [hshape]
    have htw : (b ++ (sep ++ ':' :: post)).takeWhile sufChar = b := by
      rw [takeWhile_append_all sufChar b _ hball, htwtail, List.append_nil]
    have hdw2 : (b ++ (sep ++ ':' :: post)).dropWhile sufChar = sep ++ ':' :: post := by
      rw [dropWhile_append_all sufChar b _ hball, hdwtail]
    have hbemp : ¬ (b.isEmpty = true) := by
      cases b with
      | nil => exact absurd rfl hbne
      | cons x xs => simp
    show (if (((b ++ (sep ++ ':' :: post)).takeWhile sufChar).isEmpty) = true
        then (none : Option (List Char × List Char × List Char))
        else match after_colon ((b ++ (sep ++ ':' :: post)).dropWhile sufChar) with
          | some t => some ((['G', d1, d2, d3] : List Char),
              '_' :: ((b ++ (sep ++ ':' :: post)).takeWhile sufChar), t)
          | none => none).isSome = true
    rw [htw, hdw2, if_neg hbemp, after_colon_of sep post hsep hne hnl]
    rfl

/-- C2 counterexample: the code letter must be the literal G, not any
uppercase letter: the normalized value A501: Group X does not match the
marker extraction (so that row is not classified as a marker), while the
same text with G does match. -/
theorem claim_C2_cex :
    normalize_account (some ("A501: Group X")) = some ("A501: Group X") ∧
    group_extract true ("A501: Group X") = none ∧
    group_extract true ("G501: Group X") = some (("G501"), ("Group X")) := by
  refine ⟨by decide, by decide, by decide⟩

/-- C2 (amended): a row is classified as a group marker (the extraction of
lines 105-111 succeeds, in either suffix mode) exactly when its normalized
Budget_Account decomposes as the literal letter G, exactly three digits, an
optional suffix of an underscore plus one or more non-colon non-whitespace
characters, a colon possibly surrounded by whitespace, and a non-empty
remainder TEXT. -/
theorem claim_C2 (keep : Bool) (s : String) :
    (group_extract keep s).isSome = true ↔ SpecMarker s.data := by
  unfold group_extract
  constructor
  · intro h
    cases hg : group_match s.data with
    | none =>
      rw [hg] at h
      simp at h
    | some x => exact group_match_sound s.data x hg
  · intro h
    have h2 := group_match_complete s.data h
    cases hg : group_match s.data with
    | none =>
      rw [hg] at h2
      simp at h2
    | some x =>
      rfl
